import Mathlib

set_option autoImplicit false
set_option linter.unusedVariables false

/-!
Shallow embedding of the `response` Go package (helper.go): a response-rendering
helper with a process-wide template catalog, a shared data overlay, and
renderers for templates, strings, bytes and JSON.

Modelling conventions:
* Go `map[string]interface{}` values (`DataMap`) are association lists
  `List (String × GoValue)`; lookup finds the first binding, insertion replaces
  the first binding for the key or appends.  Go maps are reference types and
  the code mutates them in place, so functions that mutate a map return the
  map's post-call contents.
* The `html/template` engine is external; the catalog is modelled as an oracle
  `exec : name → data → ExecResult` that either yields the rendered output or
  fails with a message after possibly writing a partial prefix to the sink.
* `encoding/json.Marshal` and `httputil.SetDetectedContentType` are external
  collaborators, passed as oracle parameters.
* A Go `panic(e)` is modelled as returning `.error e` (`Except`), leaving the
  response untouched.
* The response writer state (`RW`) records the Content-Type header, the status
  code written by `WriteHeader`, and the body bytes written so far (byte
  slices are modelled as strings of their bytes).
-/

namespace Response

/-- Go strings and byte slices. -/
abbrev Str := String

/-- A `core.Context`; only its identity matters for the data map. -/
structure Ctx where
  id : Nat
deriving DecidableEq

/-- Values stored in template data maps (`interface{}` at the template boundary). -/
inductive GoValue where
  | vCtx (c : Ctx)
  | vBool (b : Bool)
  | vStr (s : Str)
  | vInt (n : Int)
deriving DecidableEq

/-- A Go `map[string]interface{}`, as an association list with the first
binding for a key authoritative. -/
abbrev DataMap := List (Str × GoValue)

/-- Map lookup: `data[k]` (first binding wins; a well-formed Go map has
unique keys). -/
def lookup : DataMap → Str → Option GoValue
  | [], _ => none
  | (k', v') :: t, k => if k' = k then some v' else lookup t k

/-- Map write `data[k] = v`: replace the first binding for `k`, else append. -/
def insertKV : DataMap → Str → GoValue → DataMap
  | [], k, v => [(k, v)]
  | (k', v') :: t, k, v => if k' = k then (k, v) :: t else (k', v') :: insertKV t k v

/-- The loop `for k, v := range src { dst[k] = v }` (overwrite on conflict),
as in `TemplatesData` (helper.go lines 94-96). -/
def mergeInto (dst src : DataMap) : DataMap :=
  src.foldl (fun d kv => insertKV d kv.1 kv.2) dst

/-- The loop `for k, v := range src { if _, ok := dst[k]; !ok { dst[k] = v } }`
(copy only keys not already present), as in `ExecuteTemplate`
(helper.go lines 134-138). -/
def copyMissing (dst src : DataMap) : DataMap :=
  src.foldl (fun d kv => if (lookup d kv.1).isSome then d else insertKV d kv.1 kv.2) dst

/-- First-some choice on options, used to state pointwise map lemmas. -/
def orD (a b : Option GoValue) : Option GoValue :=
  match a with
  | some v => some v
  | none => b

/-- Outcome of executing a named template against a data map: rendered output,
or failure with a possibly partial prefix already written to the sink. -/
inductive ExecResult where
  | ok (out : Str)
  | fail (written : Str) (msg : Str)

/-- The parsed template tree (`html/template`), abstracted to its execution
behaviour. -/
structure Catalog where
  exec : Str → DataMap → ExecResult

/-- Errors surfaced by the package: `errNoTemplatesDir` (helper.go line 21),
a template execution error, or a JSON marshalling error. -/
inductive RError where
  | noTemplatesDir
  | execError (msg : Str)
  | jsonError (msg : Str)
deriving DecidableEq

/-- The package-level state: `templates` (nil when the `templates` directory
was absent at startup), `templatesData` (the shared data overlay; a nil Go map
ranges as empty, so it is the empty list), and `core.Production`. -/
structure Env where
  templates : Option Catalog
  templatesData : DataMap
  production : Bool

/-- Response-writer state: the Content-Type header (via `Header().Set`), the
status code written by `WriteHeader`, and the body written so far. -/
structure RW where
  contentType : Option Str
  status : Option Int
  body : Str
deriving DecidableEq

/-- `http.StatusOK`. -/
def StatusOK : Int := 200

/-- The effective data map built by `ExecuteTemplate` (helper.go lines
129-138): start from the caller's map (or a fresh empty one when nil), then
`data["c"] = c`, `data["production"] = core.Production` (unconditional
writes), then copy each overlay entry whose key is not already present. -/
def effectiveData (env : Env) (c : Ctx) (data : Option DataMap) : DataMap :=
  let d0 := data.getD []
  let d1 := insertKV (insertKV d0 "c" (GoValue.vCtx c)) "production" (GoValue.vBool env.production)
  copyMissing d1 env.templatesData

/-- Result of `ExecuteTemplate`: the sink's contents after the call, the
caller's data map after the call (Go maps are references; the code writes
through the caller's map and never copies it — `none` stays `none` because the
nil case allocates a fresh map invisible to the caller), and the returned
error. -/
structure ExecOut where
  written : Str
  dataAfter : Option DataMap
  result : Except RError Unit

/-- `ExecuteTemplate` (helper.go lines 124-141): fail with `errNoTemplatesDir`
when the catalog is absent; otherwise build the effective data map and execute
the named template into the sink `wr`. -/
def ExecuteTemplate (env : Env) (c : Ctx) (wr : Str) (name : Str) (data : Option DataMap) : ExecOut :=
  match env.templates with
  | none => ⟨wr, data, Except.error RError.noTemplatesDir⟩
  | some cat =>
    let d := effectiveData env c data
    match cat.exec name d with
    | ExecResult.ok out => ⟨wr ++ out, some d, Except.ok ()⟩
    | ExecResult.fail w m => ⟨wr ++ w, some d, Except.error (RError.execError m)⟩

/-- `TemplateStatus` (helper.go lines 105-118): panic with `errNoTemplatesDir`
if the catalog is absent; render into a fresh buffer; panic on execution error
(the buffer is discarded, the response untouched); on success set
Content-Type, write the status code, and copy the buffer to the response. -/
def TemplateStatus (env : Env) (c : Ctx) (w : RW) (code : Int) (name : Str) (data : Option DataMap) : Except RError RW :=
  match env.templates with
  | none => Except.error RError.noTemplatesDir
  | some _ =>
    let r := ExecuteTemplate env c "" name data
    match r.result with
    | Except.error e => Except.error e
    | Except.ok () =>
      Except.ok { contentType := some "text/html; charset=utf-8"
                  status := some code
                  body := w.body ++ r.written }

/-- `Template` (helper.go lines 100-102): `TemplateStatus` with `http.StatusOK`. -/
def Template (env : Env) (c : Ctx) (w : RW) (name : Str) (data : Option DataMap) : Except RError RW :=
  TemplateStatus env c w StatusOK name data

/-- `TemplatesData` (helper.go lines 83-97): panic with `errNoTemplatesDir` if
the catalog is absent; return unchanged if the map is nil or empty; otherwise
merge the entries into the shared overlay, overwriting on conflict. -/
def TemplatesData (env : Env) (data : Option DataMap) : Except RError Env :=
  match env.templates with
  | none => Except.error RError.noTemplatesDir
  | some _ =>
    match data with
    | none => Except.ok env
    | some m =>
      if m.length = 0 then Except.ok env
      else Except.ok { env with templatesData := mergeInto env.templatesData m }

/-- `StringStatus` (helper.go lines 159-163): sniff the content type from the
payload (`httputil.SetDetectedContentType`, an external collaborator modelled
by the oracle `sdct`), write the status code, then write the payload. -/
def StringStatus (sdct : RW → Str → RW) (c : Ctx) (w : RW) (code : Int) (s : Str) : RW :=
  let w1 := sdct w s
  { w1 with status := some code, body := w1.body ++ s }

/-- `String` (helper.go lines 154-156): `StringStatus` with `http.StatusOK`. -/
def String (sdct : RW → Str → RW) (c : Ctx) (w : RW) (s : Str) : RW :=
  StringStatus sdct c w StatusOK s

/-- `BytesStatus` (helper.go lines 171-175): like `StringStatus` for a byte
slice (bytes modelled as `Str`). -/
def BytesStatus (sdct : RW → Str → RW) (c : Ctx) (w : RW) (code : Int) (b : Str) : RW :=
  let w1 := sdct w b
  { w1 with status := some code, body := w1.body ++ b }

/-- `Bytes` (helper.go lines 166-168): `BytesStatus` with `http.StatusOK`. -/
def Bytes (sdct : RW → Str → RW) (c : Ctx) (w : RW) (b : Str) : RW :=
  BytesStatus sdct c w StatusOK b

/-- `JSONStatus` (helper.go lines 183-192): marshal `v` (external
`json.Marshal`, modelled by the oracle `marshal`); panic on marshalling error
before touching the response; on success set Content-Type to
`application/json`, write the status code, then write exactly the serialized
bytes. -/
def JSONStatus (marshal : GoValue → Except Str Str) (c : Ctx) (w : RW) (code : Int) (v : GoValue) : Except RError RW :=
  match marshal v with
  | Except.error e => Except.error (RError.jsonError e)
  | Except.ok b =>
    Except.ok { contentType := some "application/json"
                status := some code
                body := w.body ++ b }

/-- `JSON` (helper.go lines 178-180): `JSONStatus` with `http.StatusOK`. -/
def JSON (marshal : GoValue → Except Str Str) (c : Ctx) (w : RW) (v : GoValue) : Except RError RW :=
  JSONStatus marshal c w StatusOK v

/-- One visit performed by `filepath.Walk` over the templates directory: the
entry's path, whether it is a directory, and the error (if any) that the walk
passes to the walk function for this entry. -/
structure WalkEntry where
  path : Str
  isDir : Bool
  err : Option Str
deriving DecidableEq

/-- `templatesWalk` (helper.go lines 49-60): propagate a walk error, skip
directories, otherwise parse the file into the template tree
(`templates.ParseFiles(path)`, whose side effect is modelled by the `tree`
list of parsed paths; the oracle `parseErr` gives the parse error for a path,
`none` meaning success). Returns the tree after the visit and the walk
function's returned error. -/
def templatesWalk (parseErr : Str → Option Str) (tree : List Str) (e : WalkEntry) : List Str × Option Str :=
  match e.err with
  | some msg => (tree, some msg)
  | none =>
    if e.isDir then (tree, none)
    else
      match parseErr e.path with
      | some msg => (tree, some msg)
      | none => (tree ++ [e.path], none)

/-- The error `templatesWalk` returns for an entry (independent of the tree). -/
def walkStepErr (parseErr : Str → Option Str) (e : WalkEntry) : Option Str :=
  match e.err with
  | some msg => some msg
  | none => if e.isDir then none else parseErr e.path

/-- `filepath.Walk templatesDir templatesWalk`: visit the entries in order,
aborting as soon as the walk function returns a non-nil error
(`templatesWalk` never returns `SkipDir`). -/
def filepathWalk (parseErr : Str → Option Str) : List WalkEntry → List Str → List Str × Option Str
  | [], tree => (tree, none)
  | e :: es, tree =>
    match templatesWalk parseErr tree e with
    | (tree1, some msg) => (tree1, some msg)
    | (tree1, none) => filepathWalk parseErr es tree1

/-- Outcome of the `core.BeforeRun` initialization hook. -/
inductive InitOutcome where
  | ok (tree : List Str)
  | panicked (msg : Str)
deriving DecidableEq

/-- The hook registered by `init` (helper.go lines 40-44): walk the templates
directory starting from the fresh tree; on any error panic with the message
prefixed by `"response: "`. -/
def beforeRunHook (parseErr : Str → Option Str) (entries : List WalkEntry) : InitOutcome :=
  match filepathWalk parseErr entries [] with
  | (tree, none) => InitOutcome.ok tree
  | (_, some msg) => InitOutcome.panicked ("response: " ++ msg)

/-- An entry on which `templatesWalk` succeeds: no walk error, and either a
directory or a file that parses. -/
def cleanEntry (parseErr : Str → Option Str) (e : WalkEntry) : Prop :=
  e.err = none ∧ (e.isDir = true ∨ parseErr e.path = none)

/-- The regular-file paths among a list of walk entries, in visit order. -/
def filesOf (es : List WalkEntry) : List Str :=
  (es.filter (fun e => !e.isDir)).map (fun e => e.path)

instance (parseErr : Str → Option Str) (e : WalkEntry) : Decidable (cleanEntry parseErr e) := by
  unfold cleanEntry; infer_instance

/-! ### Pointwise lemmas about the map operations -/

theorem lookup_insertKV (d : DataMap) (k : Str) (v : GoValue) (k' : Str) :
    lookup (insertKV d k v) k' = if k' = k then some v else lookup d k' := by
  induction d with
  | nil =>
    by_cases h : k' = k
    · subst h; simp [insertKV, lookup]
    · have h2 : ¬ (k = k') := fun e => h e.symm
      simp [insertKV, lookup, h, h2]
  | cons hd t ih =>
    obtain ⟨a, b⟩ := hd
    simp only [insertKV]
    by_cases hak : a = k
    · subst hak
      by_cases h : k' = a
      · subst h; simp [lookup]
      · have h2 : ¬ (a = k') := fun e => h e.symm
        simp [lookup, h, h2]
    · rw [if_neg hak]
      by_cases h : a = k'
      · subst h
        simp [lookup, hak]
      · simp [lookup, h, ih]

theorem lookup_copyMissing (src : DataMap) (dst : DataMap) (k : Str) :
    lookup (copyMissing dst src) k = orD (lookup dst k) (lookup src k) := by
  induction src generalizing dst with
  | nil => cases h : lookup dst k <;> simp [copyMissing, lookup, orD, h]
  | cons hd t ih =>
    obtain ⟨a, b⟩ := hd
    have step : copyMissing dst ((a, b) :: t)
        = copyMissing (if (lookup dst a).isSome then dst else insertKV dst a b) t := by
      simp [copyMissing, List.foldl]
    rw [step]
    by_cases hda : (lookup dst a).isSome
    · rw [if_pos hda, ih]
      by_cases hka : a = k
      · subst hka
        obtain ⟨x, hx⟩ := Option.isSome_iff_exists.mp hda
        simp [lookup, orD, hx]
      · simp [lookup, hka]
    · rw [if_neg hda, ih, lookup_insertKV]
      by_cases hka : a = k
      · subst hka
        have hnone : lookup dst a = none := Option.not_isSome_iff_eq_none.mp hda
        simp [lookup, orD, hnone]
      · have : ¬ (k = a) := fun h => hka h.symm
        simp [lookup, hka, this]

theorem lookup_eq_none_of_not_mem_keys (d : DataMap) (k : Str)
    (h : k ∉ d.map Prod.fst) : lookup d k = none := by
  induction d with
  | nil => rfl
  | cons hd t ih =>
    obtain ⟨a, b⟩ := hd
    simp only [List.map_cons, List.mem_cons] at h
    push_neg at h
    have : a ≠ k := fun hak => h.1 (hak ▸ rfl)
    simp [lookup, this, ih h.2]

theorem lookup_mergeInto (src : DataMap) (dst : DataMap) (k : Str)
    (hnd : (src.map Prod.fst).Nodup) :
    lookup (mergeInto dst src) k = orD (lookup src k) (lookup dst k) := by
  induction src generalizing dst with
  | nil => cases h : lookup dst k <;> simp [mergeInto, lookup, orD, h]
  | cons hd t ih =>
    obtain ⟨a, b⟩ := hd
    have step : mergeInto dst ((a, b) :: t) = mergeInto (insertKV dst a b) t := by
      simp [mergeInto, List.foldl]
    simp only [List.map_cons, List.nodup_cons] at hnd
    rw [step, ih _ hnd.2]
    by_cases hka : a = k
    · subst hka
      have : lookup t a = none := lookup_eq_none_of_not_mem_keys t a hnd.1
      simp [lookup, orD, this, lookup_insertKV]
    · have hk : ¬ (k = a) := fun h => hka h.symm
      simp [lookup, hka, lookup_insertKV, hk]

/-! ### Lemmas about the startup walk -/

theorem templatesWalk_clean (parseErr : Str → Option Str) (tree : List Str) (e : WalkEntry)
    (h : cleanEntry parseErr e) :
    templatesWalk parseErr tree e = (tree ++ if e.isDir then [] else [e.path], none) := by
  obtain ⟨herr, hrest⟩ := h
  cases hrest with
  | inl hdir => simp [templatesWalk, herr, hdir]
  | inr hparse =>
    by_cases hdir : e.isDir
    · simp [templatesWalk, herr, hdir]
    · simp [templatesWalk, herr, hdir, hparse]

theorem templatesWalk_err (parseErr : Str → Option Str) (tree : List Str) (e : WalkEntry)
    (msg : Str) (h : walkStepErr parseErr e = some msg) :
    templatesWalk parseErr tree e = (tree, some msg) := by
  unfold walkStepErr at h
  cases herr : e.err with
  | some m =>
    rw [herr] at h
    cases h
    simp [templatesWalk, herr]
  | none =>
    rw [herr] at h
    by_cases hdir : e.isDir
    · simp [hdir] at h
    · rw [if_neg hdir] at h
      have h2 : parseErr e.path = some msg := by simpa using h
      simp [templatesWalk, herr, hdir, h2]

theorem filepathWalk_clean (parseErr : Str → Option Str) (es : List WalkEntry)
    (acc : List Str) (h : ∀ e ∈ es, cleanEntry parseErr e) :
    filepathWalk parseErr es acc = (acc ++ filesOf es, none) := by
  induction es generalizing acc with
  | nil => simp [filepathWalk, filesOf]
  | cons e t ih =>
    have he : cleanEntry parseErr e := h e (List.mem_cons_self e t)
    have ht : ∀ x ∈ t, cleanEntry parseErr x := fun x hx => h x (List.mem_cons_of_mem e hx)
    rw [filepathWalk, templatesWalk_clean parseErr acc e he]
    simp only []
    rw [ih _ ht]
    by_cases hdir : e.isDir
    · simp [filesOf, hdir]
    · simp [filesOf, hdir]

theorem filepathWalk_abort (parseErr : Str → Option Str) (pre rest : List WalkEntry)
    (bad : WalkEntry) (msg : Str) (acc : List Str)
    (hpre : ∀ e ∈ pre, cleanEntry parseErr e) (hbad : walkStepErr parseErr bad = some msg) :
    filepathWalk parseErr (pre ++ bad :: rest) acc = (acc ++ filesOf pre, some msg) := by
  induction pre generalizing acc with
  | nil =>
    rw [List.nil_append, filepathWalk, templatesWalk_err parseErr acc bad msg hbad]
    simp [filesOf]
  | cons e t ih =>
    have he : cleanEntry parseErr e := hpre e (List.mem_cons_self e t)
    have ht : ∀ x ∈ t, cleanEntry parseErr x := fun x hx => hpre x (List.mem_cons_of_mem e hx)
    rw [List.cons_append, filepathWalk, templatesWalk_clean parseErr acc e he]
    simp only []
    rw [ih _ ht]
    by_cases hdir : e.isDir
    · simp [filesOf, hdir]
    · simp [filesOf, hdir]

/-! ### Concrete fixtures used by counterexamples and witnesses -/

/-- A context used in concrete evaluations. -/
def ctx0 : Ctx := ⟨0⟩

/-- A fresh response writer. -/
def rw0 : RW := { contentType := none, status := none, body := "" }

/-- A catalog whose every template renders to the empty string. -/
def catOk : Catalog := ⟨fun _ _ => ExecResult.ok ""⟩

/-- A catalog with one good template and failing execution elsewhere. -/
def catMix : Catalog :=
  ⟨fun n _ => if n = "good" then ExecResult.ok "hello" else ExecResult.fail "par" "boom"⟩

/-- Populated catalog, empty overlay, development mode. -/
def envP : Env := ⟨some catOk, [], false⟩

/-- Populated catalog with an overlay binding for the reserved key `"c"`. -/
def envOv : Env := ⟨some catOk, [("c", GoValue.vStr "overlay")], false⟩

/-- Absent catalog (no `templates` directory at startup). -/
def envAbsent : Env := ⟨none, [], false⟩

/-- Populated catalog with mixed execution outcomes. -/
def envMix : Env := ⟨some catMix, [], false⟩

/-- A parse oracle failing exactly on the path `"bad.tmpl"`. -/
def parseErr0 : Str → Option Str :=
  fun s => if s = "bad.tmpl" then some "parse error" else none

/-- A marshal oracle failing exactly on the value `vStr "cyclic"`. -/
def marshal0 : GoValue → Except Str Str :=
  fun v => if v = GoValue.vStr "cyclic" then Except.error "unsupported" else Except.ok "42"

/-- Populated catalog with an overlay binding for `"x"`, production mode. -/
def envOv2 : Env := ⟨some catOk, [("x", GoValue.vInt 7)], true⟩

/-- Walk entries that all succeed: two template files around a subdirectory. -/
def entriesOkW : List WalkEntry :=
  [⟨"a.tmpl", false, none⟩, ⟨"sub", true, none⟩, ⟨"b.tmpl", false, none⟩]

/-- Walk entries whose second file fails to parse under `parseErr0`. -/
def entriesBadW : List WalkEntry :=
  [⟨"a.tmpl", false, none⟩, ⟨"bad.tmpl", false, none⟩, ⟨"z.tmpl", false, none⟩]

theorem str_empty_append (s : Str) : "" ++ s = s := by
  cases s; rfl

/-! ### Claims -/

/-- C1: the claim states that a caller-supplied value under the reserved key
`"c"` (or `"production"`) survives the render.  The code does the opposite:
`ExecuteTemplate` performs `data["c"] = c` unconditionally (helper.go line
132), overwriting the caller's value — contradicting the function's own doc
comment ("It always adds the following data to the map, but without
overwriding the provided data").  Evaluated at call data `{"c": "custom"}`:
the template sees the injected context, not `"custom"`. -/
theorem C1_reserved_key_overwritten :
    lookup ((ExecuteTemplate envP ctx0 "" "t" (some [("c", GoValue.vStr "custom")])).dataAfter.getD []) "c"
      = some (GoValue.vCtx ctx0)
    ∧ some (GoValue.vCtx ctx0) ≠ some (GoValue.vStr "custom") := by
  decide

/-- C2: the claim states that every caller-supplied key keeps its caller
value whenever the overlay also binds it.  For the reserved key `"c"` this
fails: with call data `{"c": "call"}` and overlay `{"c": "overlay"}`, the
injection `data["c"] = c` (helper.go line 132) overwrites the call value
before the overlay loop runs, so the executed template sees the request
context — neither `"call"` (as the claim and the doc comment promise) nor
`"overlay"`. -/
theorem C2_shared_key_loses_call_value :
    lookup ((ExecuteTemplate envOv ctx0 "" "t" (some [("c", GoValue.vStr "call")])).dataAfter.getD []) "c"
      = some (GoValue.vCtx ctx0)
    ∧ some (GoValue.vCtx ctx0) ≠ some (GoValue.vStr "call") := by
  decide

/-- C3: when the catalog is absent (nil `templates`), `ExecuteTemplate`
returns `errNoTemplatesDir` leaving both the sink and the data map untouched,
and `TemplateStatus`/`Template` abort with the same error without writing any
header, status or body to the response. -/
theorem C3_absent_catalog_fails_clean (env : Env) (c : Ctx) (w : RW) (wr : Str) (code : Int)
    (name : Str) (data : Option DataMap) (h : env.templates = none) :
    ExecuteTemplate env c wr name data = ⟨wr, data, Except.error RError.noTemplatesDir⟩
    ∧ TemplateStatus env c w code name data = Except.error RError.noTemplatesDir
    ∧ Template env c w name data = Except.error RError.noTemplatesDir := by
  refine ⟨?_, ?_, ?_⟩ <;> simp [ExecuteTemplate, TemplateStatus, Template, h]

theorem C3_witness :
    ExecuteTemplate envAbsent ctx0 "" "t" none = ⟨"", none, Except.error RError.noTemplatesDir⟩
    ∧ TemplateStatus envAbsent ctx0 rw0 200 "t" none = Except.error RError.noTemplatesDir
    ∧ Template envAbsent ctx0 rw0 "t" none = Except.error RError.noTemplatesDir :=
  C3_absent_catalog_fails_clean envAbsent ctx0 rw0 "" 200 "t" none rfl

/-- C4: `TemplateStatus` is atomic: if executing the named template against
the effective data map fails (unknown name or runtime fault alike), the call
raises that error and the response writer is untouched; if it succeeds, the
response carries Content-Type `"text/html; charset=utf-8"`, the given status
code, and exactly the fully-rendered buffer appended to the body. -/
theorem C4_template_status_atomic (env : Env) (cat : Catalog) (c : Ctx) (w : RW) (code : Int)
    (name : Str) (data : Option DataMap) (h : env.templates = some cat) :
    (∀ p m, cat.exec name (effectiveData env c data) = ExecResult.fail p m →
        TemplateStatus env c w code name data = Except.error (RError.execError m))
    ∧ (∀ out, cat.exec name (effectiveData env c data) = ExecResult.ok out →
        TemplateStatus env c w code name data =
          Except.ok { contentType := some "text/html; charset=utf-8"
                      status := some code
                      body := w.body ++ out }) := by
  constructor
  · intro p m hexec
    simp [TemplateStatus, ExecuteTemplate, h, hexec]
  · intro out hexec
    simp [TemplateStatus, ExecuteTemplate, h, hexec, str_empty_append]

theorem C4_witness :
    catMix.exec "good" (effectiveData envMix ctx0 none) = ExecResult.ok "hello"
    ∧ TemplateStatus envMix ctx0 rw0 200 "good" none =
        Except.ok { contentType := some "text/html; charset=utf-8"
                    status := some (200 : Int)
                    body := rw0.body ++ "hello" }
    ∧ catMix.exec "bad" (effectiveData envMix ctx0 none) = ExecResult.fail "par" "boom"
    ∧ TemplateStatus envMix ctx0 rw0 500 "bad" none = Except.error (RError.execError "boom") :=
  ⟨rfl,
   (C4_template_status_atomic envMix catMix ctx0 rw0 200 "good" none rfl).2 "hello" rfl,
   rfl,
   (C4_template_status_atomic envMix catMix ctx0 rw0 500 "bad" none rfl).1 "par" "boom" rfl⟩

/-- C5: during the startup walk, every regular-file entry is parsed into the
tree and every directory entry is skipped, so a clean walk yields exactly the
file paths in visit order; the first walk or parse error aborts the walk at
that entry (entries after it are never parsed) and the `core.BeforeRun` hook
panics with the error prefixed by `"response: "` instead of swallowing it. -/
theorem C5_startup_walk (p : Str → Option Str) (entries pre rest : List WalkEntry)
    (bad : WalkEntry) (msg : Str) :
    ((∀ e ∈ entries, cleanEntry p e) →
        beforeRunHook p entries = InitOutcome.ok (filesOf entries))
    ∧ (entries = pre ++ bad :: rest → (∀ e ∈ pre, cleanEntry p e) →
        walkStepErr p bad = some msg →
          filepathWalk p entries [] = (filesOf pre, some msg)
          ∧ beforeRunHook p entries = InitOutcome.panicked ("response: " ++ msg)) := by
  constructor
  · intro h
    rw [beforeRunHook, filepathWalk_clean p entries [] h]
    simp
  · intro heq hpre hbad
    subst heq
    have hw := filepathWalk_abort p pre rest bad msg [] hpre hbad
    rw [List.nil_append] at hw
    exact ⟨hw, by rw [beforeRunHook, hw]⟩

theorem C5_witness :
    beforeRunHook parseErr0 entriesOkW = InitOutcome.ok (filesOf entriesOkW)
    ∧ (filepathWalk parseErr0 entriesBadW [] = (filesOf [⟨"a.tmpl", false, none⟩], some "parse error")
       ∧ beforeRunHook parseErr0 entriesBadW = InitOutcome.panicked ("response: " ++ "parse error")) :=
  ⟨(C5_startup_walk parseErr0 entriesOkW [] [] ⟨"", false, none⟩ "").1 (by decide),
   (C5_startup_walk parseErr0 entriesBadW [⟨"a.tmpl", false, none⟩] [⟨"z.tmpl", false, none⟩]
      ⟨"bad.tmpl", false, none⟩ "parse error").2 rfl (by decide) (by decide)⟩

/-- C6: `JSONStatus` (and `JSON` through it) is atomic: if marshalling fails
the call aborts with that error before any header, status or body byte is
written; if it succeeds the response carries Content-Type `"application/json"`,
the given status code, and exactly the serialized bytes appended to the body. -/
theorem C6_json_atomic (marshal : GoValue → Except Str Str) (c : Ctx) (w : RW) (code : Int)
    (v : GoValue) :
    (∀ e, marshal v = Except.error e →
        JSONStatus marshal c w code v = Except.error (RError.jsonError e))
    ∧ (∀ b, marshal v = Except.ok b →
        JSONStatus marshal c w code v =
          Except.ok { contentType := some "application/json"
                      status := some code
                      body := w.body ++ b }) := by
  constructor <;> intro x hx <;> simp [JSONStatus, hx]

theorem C6_witness :
    JSONStatus marshal0 ctx0 rw0 200 (GoValue.vStr "cyclic")
      = Except.error (RError.jsonError "unsupported")
    ∧ JSONStatus marshal0 ctx0 rw0 201 (GoValue.vInt 5) =
        Except.ok { contentType := some "application/json"
                    status := some (201 : Int)
                    body := rw0.body ++ "42" } :=
  ⟨(C6_json_atomic marshal0 ctx0 rw0 200 (GoValue.vStr "cyclic")).1 "unsupported" rfl,
   (C6_json_atomic marshal0 ctx0 rw0 201 (GoValue.vInt 5)).2 "42" rfl⟩

/-- C7: `TemplatesData` with the catalog absent fails with `errNoTemplatesDir`
(this check runs first); with the catalog present, a nil or empty map is a
no-op — the call succeeds and the overlay (indeed the whole state) is
unchanged. -/
theorem C7_templates_data_guard (env : Env) (data : Option DataMap) :
    (env.templates = none → TemplatesData env data = Except.error RError.noTemplatesDir)
    ∧ (∀ cat, env.templates = some cat → data = none ∨ data = some [] →
        TemplatesData env data = Except.ok env) := by
  constructor
  · intro h
    simp [TemplatesData, h]
  · intro cat h hd
    cases hd with
    | inl h1 => subst h1; simp [TemplatesData, h]
    | inr h1 => subst h1; simp [TemplatesData, h]

theorem C7_witness :
    TemplatesData envAbsent (some [("x", GoValue.vInt 1)]) = Except.error RError.noTemplatesDir
    ∧ TemplatesData envP none = Except.ok envP
    ∧ TemplatesData envP (some []) = Except.ok envP :=
  ⟨(C7_templates_data_guard envAbsent (some [("x", GoValue.vInt 1)])).1 rfl,
   (C7_templates_data_guard envP none).2 catOk rfl (Or.inl rfl),
   (C7_templates_data_guard envP (some [])).2 catOk rfl (Or.inr rfl)⟩

/-- C8: with a populated catalog and a non-empty map `m`, registering `m` is
the overwrite-merge into the overlay; registering the same `m` twice leaves
the overlay (pointwise) exactly as one registration does; and across two
successive registrations, any key bound by the later map `m2` ends up with
`m2`'s value (overwrite-on-conflict). -/
theorem C8_overlay_merge (env : Env) (cat : Catalog) (m m2 : DataMap)
    (h : env.templates = some cat) (hne : m ≠ [])
    (hnd : (m.map Prod.fst).Nodup) (hnd2 : (m2.map Prod.fst).Nodup) :
    TemplatesData env (some m)
      = Except.ok { env with templatesData := mergeInto env.templatesData m }
    ∧ (∀ env1 env2, TemplatesData env (some m) = Except.ok env1 →
        TemplatesData env1 (some m) = Except.ok env2 →
        ∀ k, lookup env2.templatesData k = lookup env1.templatesData k)
    ∧ (∀ env1 env2 k v, TemplatesData env (some m) = Except.ok env1 →
        TemplatesData env1 (some m2) = Except.ok env2 → lookup m2 k = some v →
        lookup env2.templatesData k = some v) := by
  have hlen : ¬ (m.length = 0) := fun hz => hne (List.length_eq_zero.mp hz)
  have e1 : TemplatesData env (some m)
      = Except.ok { env with templatesData := mergeInto env.templatesData m } := by
    simp [TemplatesData, h, hlen]
  refine ⟨e1, ?_, ?_⟩
  · intro env1 env2 h1 h2 k
    rw [e1] at h1
    cases h1
    have e2 : TemplatesData { env with templatesData := mergeInto env.templatesData m } (some m)
        = Except.ok { env with templatesData := mergeInto (mergeInto env.templatesData m) m } := by
      simp [TemplatesData, h, hlen]
    rw [e2] at h2
    cases h2
    have la := lookup_mergeInto m (mergeInto env.templatesData m) k hnd
    have lb := lookup_mergeInto m env.templatesData k hnd
    rw [la, lb]
    cases lookup m k <;> simp [orD]
  · intro env1 env2 k v h1 h2 hk
    rw [e1] at h1
    cases h1
    have hne2 : ¬ (m2.length = 0) := by
      intro hz
      rw [List.length_eq_zero.mp hz] at hk
      simp [lookup] at hk
    have e2 : TemplatesData { env with templatesData := mergeInto env.templatesData m } (some m2)
        = Except.ok { env with templatesData := mergeInto (mergeInto env.templatesData m) m2 } := by
      simp [TemplatesData, h, hne2]
    rw [e2] at h2
    cases h2
    rw [lookup_mergeInto m2 (mergeInto env.templatesData m) k hnd2, hk]
    simp [orD]

theorem C8_witness :
    TemplatesData envP (some [("x", GoValue.vInt 1)])
      = Except.ok { envP with templatesData := mergeInto envP.templatesData [("x", GoValue.vInt 1)] }
    ∧ (∀ env1 env2, TemplatesData envP (some [("x", GoValue.vInt 1)]) = Except.ok env1 →
        TemplatesData env1 (some [("x", GoValue.vInt 1)]) = Except.ok env2 →
        ∀ k, lookup env2.templatesData k = lookup env1.templatesData k)
    ∧ (∀ env1 env2 k v, TemplatesData envP (some [("x", GoValue.vInt 1)]) = Except.ok env1 →
        TemplatesData env1 (some [("x", GoValue.vInt 2)]) = Except.ok env2 →
        lookup [("x", GoValue.vInt 2)] k = some v →
        lookup env2.templatesData k = some v) :=
  C8_overlay_merge envP catOk [("x", GoValue.vInt 1)] [("x", GoValue.vInt 2)] rfl
    (by decide) (by decide) (by decide)

/-- C9: with a populated catalog, `ExecuteTemplate` works on the
caller-supplied map itself (Go maps are references and the code never copies
`data`): after the call the caller's map is exactly the effective data map,
which holds the context under `"c"`, the production flag under
`"production"`, an entry under every overlay key, and the overlay's value
under every non-reserved overlay key the caller had not supplied. -/
theorem C9_mutates_caller_map (env : Env) (cat : Catalog) (c : Ctx) (wr : Str) (name : Str)
    (m : DataMap) (h : env.templates = some cat) :
    (ExecuteTemplate env c wr name (some m)).dataAfter = some (effectiveData env c (some m))
    ∧ lookup (effectiveData env c (some m)) "c" = some (GoValue.vCtx c)
    ∧ lookup (effectiveData env c (some m)) "production" = some (GoValue.vBool env.production)
    ∧ (∀ k, (lookup env.templatesData k).isSome →
        (lookup (effectiveData env c (some m)) k).isSome)
    ∧ (∀ k v, lookup m k = none → k ≠ "c" → k ≠ "production" →
        lookup env.templatesData k = some v →
        lookup (effectiveData env c (some m)) k = some v) := by
  have heff : effectiveData env c (some m)
      = copyMissing (insertKV (insertKV m "c" (GoValue.vCtx c)) "production"
          (GoValue.vBool env.production)) env.templatesData := rfl
  refine ⟨?_, ?_, ?_, ?_, ?_⟩
  · cases hx : cat.exec name (effectiveData env c (some m)) <;>
      simp [ExecuteTemplate, h, hx]
  · rw [heff, lookup_copyMissing, lookup_insertKV, lookup_insertKV,
      if_neg (show ¬ ("c" : Str) = "production" by decide), if_pos rfl]
    simp [orD]
  · rw [heff, lookup_copyMissing, lookup_insertKV, if_pos rfl]
    simp [orD]
  · intro k hk
    rw [heff, lookup_copyMissing]
    cases hd : lookup (insertKV (insertKV m "c" (GoValue.vCtx c)) "production"
        (GoValue.vBool env.production)) k <;> simp [orD, hd, hk]
  · intro k v hm hc hp hov
    rw [heff, lookup_copyMissing, lookup_insertKV, lookup_insertKV,
      if_neg hp, if_neg hc, hm, hov]
    simp [orD]

theorem C9_witness :
    (ExecuteTemplate envOv2 ctx0 "" "t" (some [("y", GoValue.vStr "u")])).dataAfter
      = some (effectiveData envOv2 ctx0 (some [("y", GoValue.vStr "u")]))
    ∧ lookup (effectiveData envOv2 ctx0 (some [("y", GoValue.vStr "u")])) "c"
        = some (GoValue.vCtx ctx0)
    ∧ lookup (effectiveData envOv2 ctx0 (some [("y", GoValue.vStr "u")])) "production"
        = some (GoValue.vBool true)
    ∧ lookup (effectiveData envOv2 ctx0 (some [("y", GoValue.vStr "u")])) "x"
        = some (GoValue.vInt 7) := by
  have H := C9_mutates_caller_map envOv2 catOk ctx0 "" "t" [("y", GoValue.vStr "u")] rfl
  exact ⟨H.1, H.2.1, H.2.2.1,
    H.2.2.2.2 "x" (GoValue.vInt 7) (by decide) (by decide) (by decide) (by decide)⟩

/-- C10: each status-less renderer equals its status-taking counterpart at
status 200 (`http.StatusOK`), for every input: `Template` vs
`TemplateStatus`, `String` vs `StringStatus`, `Bytes` vs `BytesStatus`, and
`JSON` vs `JSONStatus`. -/
theorem C10_status_default_equiv (env : Env) (c : Ctx) (w : RW) (name : Str)
    (data : Option DataMap) (sdct : RW → Str → RW) (s b : Str)
    (marshal : GoValue → Except Str Str) (v : GoValue) :
    Template env c w name data = TemplateStatus env c w 200 name data
    ∧ String sdct c w s = StringStatus sdct c w 200 s
    ∧ Bytes sdct c w b = BytesStatus sdct c w 200 b
    ∧ JSON marshal c w v = JSONStatus marshal c w 200 v :=
  ⟨rfl, rfl, rfl, rfl⟩

end Response
